import Mathlib

/-!
Verification of the toonstream-cloudflare scraper/sync system.

The development shallowly embeds the scraping and embed-resolution logic of
`toonstream-supabase-sync.js` (the Node variant) and `src/index.js` (the
Cloudflare Worker variant).  Pure string manipulation is translated directly;
host primitives that the source merely calls (the WHATWG `URL` resolver,
`axios`'s transport, `cheerio`'s HTML parser, the Supabase client, the
platform regex engine applied to raw markup) are modelled as oracle
parameters, so every theorem quantifies over their behaviour.  All
definitions are executable, and concrete witnesses evaluate them by `decide`.
-/

namespace Toonstream

/-! ## String primitives

The source operates on JavaScript strings via `includes`, `startsWith`,
`toLowerCase` and friends.  We model them over `List Char` so that concrete
evaluation reduces in the kernel. -/

/-- JavaScript `haystack.includes(needle)` on character lists. -/
def containsAux (pat : List Char) : List Char → Bool
  | [] => pat.isEmpty
  | c :: rest => pat.isPrefixOf (c :: rest) || containsAux pat rest

/-- JavaScript `s.includes(pat)`. -/
def strContains (s pat : String) : Bool := containsAux pat.toList s.toList

/-- JavaScript `s.startsWith(pat)`. -/
def strStartsWith (s pat : String) : Bool := pat.toList.isPrefixOf s.toList

/-- JavaScript `s.toLowerCase()` (ASCII case folding, which is all the source
compares against). -/
def strToLower (s : String) : String := String.mk (s.toList.map Char.toLower)

/-- JavaScript string truthiness combined with `||`: `a || b` where an empty
string is falsy. -/
def jsOr (a b : Option String) : Option String :=
  match a with
  | some s => if s = "" then b else some s
  | none => b

/-- One global-flag `String.prototype.replace` pass with a plain-string
pattern: left-to-right, non-overlapping.  Structural recursion on a fuel
that bounds the list length, so the kernel can evaluate it. -/
def replaceAllGo (pat rep : List Char) : Nat → List Char → List Char
  | _, [] => []
  | 0, l => l
  | fuel + 1, c :: rest =>
    if pat.isPrefixOf (c :: rest) && !pat.isEmpty then
      rep ++ replaceAllGo pat rep fuel ((c :: rest).drop pat.length)
    else
      c :: replaceAllGo pat rep fuel rest

/-- One global-flag `String.prototype.replace` pass with a plain-string
pattern. -/
def replaceAllL (pat rep l : List Char) : List Char :=
  replaceAllGo pat rep l.length l

/-- `decodeHtmlEntities` from the source: a fixed chain of global string
replacements, in source order. -/
def decodeHtmlEntities (s : String) : String :=
  let steps : List (String × String) :=
    [("&#038;", "&"), ("&#38;", "&"), ("&amp;", "&"),
     ("&#039;", "'"), ("&#39;", "'"), ("&apos;", "'"),
     ("&#034;", "\""), ("&#34;", "\""), ("&quot;", "\""),
     ("&lt;", "<"), ("&gt;", ">")]
  String.mk (steps.foldl (fun l p => replaceAllL p.1.toList p.2.toList l) s.toList)

/-- Digit-string to number, as `parseInt(·, 10)` on an all-digit string. -/
def natOfDigits (l : List Char) : Nat :=
  l.foldl (fun n c => 10 * n + (c.toNat - '0'.toNat)) 0

/-! ## `parseEpisodeCode` (source lines 544-551)

`url.match(/(\d+)x(\d+)/i)`: the regex engine scans positions left to right;
at a position the pattern matches exactly when a maximal digit run is
followed by `x`/`X` and at least one digit (greedy `\d+` cannot backtrack
into a successful match here, since shortening the first group puts a digit
where `x` must be). -/

structure EpisodeCode where
  season : Nat
  episode : Nat
deriving DecidableEq, Repr

/-- The regex `(\d+)x(\d+)` anchored at the head of the list: maximal digit
run, then `x` or `X` (the `/i` flag), then maximal digit run. -/
def matchDxDAt (l : List Char) : Option (List Char × List Char) :=
  let d1 := l.takeWhile Char.isDigit
  let r1 := l.dropWhile Char.isDigit
  if d1.isEmpty then none
  else
    match r1 with
    | x :: r2 =>
      if x = 'x' ∨ x = 'X' then
        let d2 := r2.takeWhile Char.isDigit
        if d2.isEmpty then none else some (d1, d2)
      else none
    | [] => none

/-- Leftmost match of `(\d+)x(\d+)` in the list. -/
def findDxD : List Char → Option (List Char × List Char)
  | [] => none
  | c :: rest =>
    match matchDxDAt (c :: rest) with
    | some p => some p
    | none => findDxD rest

/-- `parseEpisodeCode(url)` from the source: first `(\d+)x(\d+)` match
anywhere in the string, groups read with `parseInt`. -/
def parseEpisodeCode (url : String) : Option EpisodeCode :=
  match findDxD url.toList with
  | some (d1, d2) => some ⟨natOfDigits d1, natOfDigits d2⟩
  | none => none

/-- Is there an adjacent digit, `x`/`X`, digit triple anywhere in the list?
This characterises when the source regex matches. -/
def hasDigitXDigit : List Char → Bool
  | a :: b :: c :: rest =>
    (a.isDigit && (b = 'x' || b = 'X') && c.isDigit) || hasDigitXDigit (b :: c :: rest)
  | _ => false

/-- The digit, `x`/`X`, digit triple at the head of the list. -/
def headTriple : List Char → Bool
  | a :: b :: c :: _ => a.isDigit && (b = 'x' || b = 'X') && c.isDigit
  | _ => false

/-- Modelled from the spec: the slug pattern `<text>-<digits>x<digits>` with
both components positive, read off the spec's sentence "Parsed from URL slug
pattern `<slug>-<season>x<episode>`; invariant: both components are positive
integers".  Parses from the right: a nonempty digit suffix, an `x`, a
nonempty digit run, a dash, and nonempty leading text. -/
def specSlugPattern (s : String) : Bool :=
  let r := s.toList.reverse
  let d2 := r.takeWhile Char.isDigit
  let r1 := r.dropWhile Char.isDigit
  if d2.isEmpty then false
  else
    match r1 with
    | 'x' :: r2 =>
      let d1 := r2.takeWhile Char.isDigit
      let r3 := r2.dropWhile Char.isDigit
      if d1.isEmpty then false
      else
        match r3 with
        | '-' :: t =>
          !t.isEmpty && decide (0 < natOfDigits d1.reverse) &&
            decide (0 < natOfDigits d2.reverse)
        | _ => false
    | _ => false

/-! ## HTTP fetch layer: `fetchHtmlWithRetry` (source lines 228-283)

`axios.get` is modelled by an oracle giving each attempt's outcome; per its
contract, a response whose status fails the configured `validateStatus`
predicate is thrown as an error carrying the standard axios message. -/

/-- `CONFIG.maxRetries` (source line 28). -/
def CONFIG_maxRetries : Nat := 3

/-- `CONFIG.requestTimeout` (source line 27). -/
def CONFIG_requestTimeout : Nat := 30000

/-- The outcome the transport gives one `axios.get` attempt: a response
with a status and body, or a network-level error with a message. -/
inductive AxiosOutcome where
  | ok (status : Nat) (body : String)
  | netErr (msg : String)
deriving DecidableEq, Repr

/-- `validateStatus: (status) => status >= 200 && status < 400` (source
line 248). -/
def validateStatus (status : Nat) : Bool :=
  decide (200 ≤ status) && decide (status < 400)

/-- The fixed numeric fields of the per-attempt request config (source
lines 242-249). -/
structure AxiosConfig where
  timeout : Nat
  maxRedirects : Nat
deriving DecidableEq, Repr

/-- The request config built on every attempt: default timeout and
`maxRedirects: 5`. -/
def buildAxiosConfig : AxiosConfig := ⟨CONFIG_requestTimeout, 5⟩

/-- The message of the error axios throws when `validateStatus` rejects the
response status. -/
def axiosStatusErrMsg (status : Nat) : String :=
  "Request failed with status code " ++ toString status

/-- Does this attempt outcome land in the `catch`? -/
def attemptFails (env : Nat → AxiosOutcome) (a : Nat) : Bool :=
  match env a with
  | .ok status _ => !validateStatus status
  | .netErr _ => true

/-- The error message an attempt contributes to `lastErr` (`none` on
success). -/
def attemptErr : AxiosOutcome → Option String
  | .ok status _ => if validateStatus status then none else some (axiosStatusErrMsg status)
  | .netErr msg => some msg

/-- The body a successful attempt returns. -/
def attemptBody (env : Nat → AxiosOutcome) (a : Nat) : String :=
  match env a with
  | .ok _ body => body
  | .netErr _ => ""

/-- `lastErr?.message || "unknown error"`. -/
def lastErrMsg : Option String → String
  | some m => if m = "" then "unknown error" else m
  | none => "unknown error"

deriving instance DecidableEq for Except

/-- Result of a `fetchHtmlWithRetry` call: the returned text or thrown
error, the number of attempts executed, and the delays awaited (in ms, in
order). -/
structure FetchResult where
  result : Except String String
  attemptsMade : Nat
  delays : List Nat
deriving DecidableEq, Repr

/-- The retry loop (source lines 236-279), counting down the remaining
attempts; attempt number `retries - remaining` runs next.  On a rejected
status or network error the loop records `lastErr`, awaits
`500 * attempt`, and continues; exhaustion throws
`Failed to fetch <url>: <lastErr.message or "unknown error">`. -/
def fetchHtmlGo (env : Nat → AxiosOutcome) (url : String) (retries : Nat) :
    Nat → Option String → FetchResult
  | 0, lastErr =>
    ⟨.error ("Failed to fetch " ++ url ++ ": " ++ lastErrMsg lastErr), 0, []⟩
  | remaining + 1, _lastErr =>
    let attempt := retries - remaining
    match env attempt with
    | .ok status body =>
      if validateStatus status then ⟨.ok body, 1, []⟩
      else
        let rest := fetchHtmlGo env url retries remaining
          (some (axiosStatusErrMsg status))
        ⟨rest.result, rest.attemptsMade + 1, 500 * attempt :: rest.delays⟩
    | .netErr msg =>
      let rest := fetchHtmlGo env url retries remaining (some msg)
      ⟨rest.result, rest.attemptsMade + 1, 500 * attempt :: rest.delays⟩

/-- `fetchHtmlWithRetry(url, retries)`. -/
def fetchHtmlWithRetry (env : Nat → AxiosOutcome) (url : String)
    (retries : Nat) : FetchResult :=
  fetchHtmlGo env url retries retries none

/-- An attempt oracle where attempt 1 hits a network error and attempt 2
succeeds with status 200. -/
def retryEnvOk : Nat → AxiosOutcome
  | 1 => .netErr "socket hang up"
  | 2 => .ok 200 "<html>ep</html>"
  | _ => .ok 500 ""

/-- An attempt oracle where every attempt fails (last failure is an HTTP
503). -/
def retryEnvFail : Nat → AxiosOutcome
  | 1 => .netErr "socket hang up"
  | 2 => .ok 403 ""
  | _ => .ok 503 ""

/-! ## Episode-code selection of `buildEpisodeRecord` (source lines 1337-1341) -/

/-- `hints.code || parseEpisodeCode(episodeUrl) || { season: 1, episode:
Math.floor(Date.now() / 1000) }`: caller hint, else the parsed code, else
the timestamp fallback (`nowMs` is `Date.now()` in milliseconds). -/
def buildEpisodeCode (hintsCode : Option EpisodeCode) (episodeUrl : String)
    (nowMs : Nat) : EpisodeCode :=
  match hintsCode with
  | some c => c
  | none =>
    match parseEpisodeCode episodeUrl with
    | some c => c
    | none => ⟨1, nowMs / 1000⟩

/-! ## Embed assembly: the resolution loop of `extractEmbeds` (source lines
1011-1060)

The candidate extraction over the episode page's HTML (player options and
bare iframes) yields a list of server options; the loop below resolves each
and builds the embeds list.  One `extractRealVideoUrl` call is modelled by
the oracle `resolveFn` (`none` = resolution returned null). -/

/-- JavaScript truthiness of an optional string. -/
def jsTruthy : Option String → Bool
  | some s => !decide (s = "")
  | none => false

/-- One entry of `serverOptions`: either a synthesized trembed URL or an
already-external direct URL. -/
structure ServerOption where
  name : String
  trembedUrl : Option String
  directUrl : Option String
  option : Nat
deriving DecidableEq, Repr

/-- One entry of the returned `embeds` list. -/
structure ResolvedEmbed where
  name : String
  url : String
  real_video : String
  type : String
  intermediate_url : Option String
  option : Nat
deriving DecidableEq, Repr

/-- The `for` loop over `serverOptions`: direct external URLs are kept
as-is; trembed URLs are resolved, and an entry is pushed only when the
resolved URL is truthy, differs from the trembed URL, and contains neither
`toonstream.one` nor `trembed`; otherwise the candidate is dropped and the
loop continues. -/
def extractEmbedsLoop (resolveFn : String → Option String) :
    List ServerOption → List ResolvedEmbed
  | [] => []
  | server :: rest =>
    if jsTruthy server.directUrl then
      let d := server.directUrl.getD ""
      ⟨server.name, d, d, "iframe", none, server.option⟩
        :: extractEmbedsLoop resolveFn rest
    else if jsTruthy server.trembedUrl then
      let t := server.trembedUrl.getD ""
      match resolveFn t with
      | some realVideoUrl =>
        if realVideoUrl ≠ "" ∧ realVideoUrl ≠ t
            ∧ strContains realVideoUrl "toonstream.one" = false
            ∧ strContains realVideoUrl "trembed" = false then
          ⟨server.name, realVideoUrl, realVideoUrl, "iframe", some t, server.option⟩
            :: extractEmbedsLoop resolveFn rest
        else extractEmbedsLoop resolveFn rest
      | none => extractEmbedsLoop resolveFn rest
    else extractEmbedsLoop resolveFn rest

/-- The resolver of the C7 witness scenario: the first trembed URL resolves
to `filemoon`, the second fails. -/
def demoResolve : String → Option String := fun t =>
  if t = "https://toonstream.one/?trembed=0&trid=5&trtype=2" then
    some "https://filemoon.sx/e/ok"
  else none

/-- Two trembed server options for the C7 witness scenario. -/
def demoOptions : List ServerOption :=
  [⟨"Server 1", some "https://toonstream.one/?trembed=0&trid=5&trtype=2", none, 1⟩,
   ⟨"Server 2", some "https://toonstream.one/?trembed=1&trid=5&trtype=2", none, 2⟩]

/-- The single embed the C7 witness scenario produces. -/
def demoEmbed : ResolvedEmbed :=
  ⟨"Server 1", "https://filemoon.sx/e/ok", "https://filemoon.sx/e/ok", "iframe",
   some "https://toonstream.one/?trembed=0&trid=5&trtype=2", 1⟩

/-! ## Embed resolution engine: `extractRealVideoUrl` (source lines 553-784)

Host primitives (the WHATWG `URL` constructor, the network transport plus
`cheerio` parsing, the regex engine run over inline scripts) are oracle
parameters.  `EmbedPage` is the abstraction of one fetched-and-parsed HTML
document: exactly the element attributes and raw script-candidate strings
the source inspects. -/

/-- A `<video>` or `<source>` element, as `pickDirectVideo` reads it. -/
structure MediaNode where
  src : Option String
  dataSrc : Option String
deriving DecidableEq, Repr

/-- An `<iframe>` element, as `pickIframe` reads it. -/
structure IframeNode where
  src : Option String
  dataSrc : Option String
  dataLazySrc : Option String
deriving DecidableEq, Repr

/-- One fetched page after `cheerio.load`: media and iframe elements in
document order, and the raw candidate strings that the script-regex battery
of `pickFromScripts` yields from inline scripts, in order. -/
structure EmbedPage where
  mediaNodes : List MediaNode
  iframeNodes : List IframeNode
  scriptCandidates : List String
deriving DecidableEq, Repr

/-- The host environment: `urlResolve raw base` models
`new URL(raw, base).href` (`none` = TypeError), `hostnameOf` models
`new URL(u).hostname`, and `fetch` models `fetchHtmlWithRetry` followed by
`cheerio.load` (`none` = all retries failed, i.e. the fetch threw). -/
structure ResolveEnv where
  urlResolve : String → String → Option String
  hostnameOf : String → Option String
  fetch : String → Option EmbedPage

/-- `CONFIG.homeUrl` under the default configuration. -/
def CONFIG_homeUrl : String := "https://toonstream.one/home/"

/-- `TOONSTREAM_HOST`: hostname of the default `CONFIG.homeUrl` with a
leading `www.` stripped. -/
def TOONSTREAM_HOST : String := "toonstream.one"

/-- `CONFIG.embedMaxDepth` under the default configuration. -/
def CONFIG_embedMaxDepth : Nat := 3

/-- `hostname.replace(/^www\./, "")`. -/
def stripWww (h : String) : String :=
  if strStartsWith h "www." then String.mk (h.toList.drop 4) else h

/-- `isToonstreamUrl(url)` from the source. -/
def isToonstreamUrl (env : ResolveEnv) (url : String) : Bool :=
  match env.hostnameOf url with
  | some h => stripWww h = TOONSTREAM_HOST
  | none => false

/-- `normalizeUrl(rawUrl, base)` from the source: rejects empty and
`javascript:` inputs, decodes HTML entities, then resolves against the
base. -/
def normalizeUrl (env : ResolveEnv) (rawUrl : Option String) (base : String) :
    Option String :=
  match rawUrl with
  | none => none
  | some r =>
    if r = "" || strStartsWith (strToLower r) "javascript:" then none
    else env.urlResolve (decodeHtmlEntities r) base

/-- The `needsFollow` closure of `extractRealVideoUrl`. -/
def needsFollow (env : ResolveEnv) (url : String) : Bool :=
  if url = "" then false
  else
    strContains url "trembed" || strContains url "trid=" ||
    strContains url "trtype=" || isToonstreamUrl env url ||
    strContains url "/embed/" || strContains url "/player/" ||
    strContains url "/e/"

/-- The `isVideoUrl` closure of `extractRealVideoUrl`.  Extensions are
checked on the lowercased URL; the remaining patterns on the original, as
in the source. -/
def isVideoUrl (url : String) : Bool :=
  if url = "" then false
  else
    let lowerUrl := strToLower url
    [".mp4", ".m3u8", ".webm", ".mkv", ".avi", ".mov", ".flv"].any
      (fun ext => strContains lowerUrl ext) ||
    strContains url "/video/" || strContains url "/stream/" ||
    strContains url "/hls/" ||
    strContains url "googlevideo.com" || strContains url "googleusercontent.com" ||
    strContains url "streamtape" || strContains url "filemoon" ||
    strContains url "voe.sx" ||
    strContains url "dood" || strContains url "mixdrop" ||
    strContains url "streamlare"

/-- Loop of the `pickDirectVideo` closure over `$("video, source")`. -/
def pickDirectVideoGo (env : ResolveEnv) (url : String) :
    List MediaNode → Option String
  | [] => none
  | n :: rest =>
    match normalizeUrl env (jsOr n.src n.dataSrc) url with
    | some normalized =>
      if strStartsWith normalized "blob:" then pickDirectVideoGo env url rest
      else some normalized
    | none => pickDirectVideoGo env url rest

/-- `pickDirectVideo` closure: first `video`/`source` whose `src`/`data-src`
normalizes to a non-`blob:` URL. -/
def pickDirectVideo (env : ResolveEnv) (page : EmbedPage) (url : String) :
    Option String :=
  pickDirectVideoGo env url page.mediaNodes

/-- `iframe.attr("src") || iframe.attr("data-src") || iframe.attr("data-lazy-src")`. -/
def iframeRaw (n : IframeNode) : Option String :=
  jsOr n.src (jsOr n.dataSrc n.dataLazySrc)

/-- Loop of the `pickIframe` closure over `$("iframe")`: collects normalized
URLs distinct from the current URL and not yet visited; the closure returns
the first. -/
def pickIframeGo (env : ResolveEnv) (url : String) (visited : List String) :
    List IframeNode → Option String
  | [] => none
  | n :: rest =>
    match normalizeUrl env (iframeRaw n) url with
    | some normalized =>
      if normalized ≠ url ∧ normalized ∉ visited then some normalized
      else pickIframeGo env url visited rest
    | none => pickIframeGo env url visited rest

/-- `pickIframe` closure. -/
def pickIframe (env : ResolveEnv) (page : EmbedPage) (url : String)
    (visited : List String) : Option String :=
  pickIframeGo env url visited page.iframeNodes

/-- The normalized-and-filtered candidate list `allCandidates` of the
`pickFromScripts` closure. -/
def scriptCandidatesNorm (env : ResolveEnv) (url : String)
    (visited : List String) (raws : List String) : List String :=
  raws.filterMap fun raw =>
    match normalizeUrl env (some raw) url with
    | some normalized =>
      if normalized ≠ url ∧ normalized ∉ visited then some normalized else none
    | none => none

/-- `pickFromScripts` closure: prefer a candidate matching the video
heuristic, else one that needs following or looks like an embed, else the
first candidate. -/
def pickFromScripts (env : ResolveEnv) (page : EmbedPage) (url : String)
    (visited : List String) : Option String :=
  let allCandidates := scriptCandidatesNorm env url visited page.scriptCandidates
  match allCandidates.find? (fun u => isVideoUrl u) with
  | some videoUrl => some videoUrl
  | none =>
    match allCandidates.find? (fun u =>
        needsFollow env u || strContains u "/embed/" || strContains u "/player/") with
    | some embedUrl => some embedUrl
    | none => allCandidates.head?

/-- `iframeNotToonstream` from the source: the URL carries neither the
source-site marker nor any redirector query marker. -/
def iframeNotToonstream (iframeUrl : String) : Bool :=
  !strContains iframeUrl "toonstream.one" && !strContains iframeUrl "trembed" &&
  !strContains iframeUrl "trid=" && !strContains iframeUrl "trtype="

/-- `isVideoPlayer` from the source: the known-player substring allowlist,
in source order. -/
def isVideoPlayer (iframeUrl : String) : Bool :=
  ["play.", "player.", "/video/", "/embed/", "/e/", "/t/",
   "zephyrflick", "filemoon", "streamtape", "dood", "voe.sx", "mixdrop",
   "emturbovid", "turbovid", "vidmoly", "streamwish", "vidhide", "vidguard",
   "vidsrc", "embedsito", "upstream", "mp4upload", "okru", "sbplay",
   "streamsb", "vidcloud", "goload", "gogo"].any
    (fun pat => strContains iframeUrl pat)

/-- What one hop of `resolve` decides after a successful fetch: return a
value, or recurse into the next URL at depth + 1. -/
inductive StepDecision where
  | ret (r : Option String)
  | recurse (next : String)
deriving DecidableEq, Repr

/-- The post-fetch body of the `resolve` closure (source lines 605-778),
linearized: direct-video short-circuit, then the iframe branch (immediate
return for external classified or external `http` iframes, recursion for
`needsFollow` targets), then the script branch, then the late iframe
recursion, then the `directVideo || url` fallback. -/
def resolveStep (env : ResolveEnv) (maxDepth : Nat) (page : EmbedPage)
    (url : String) (depth : Nat) (visited : List String) : StepDecision :=
  let directVideo := pickDirectVideo env page url
  let dvHit := match directVideo with
    | some dv => isVideoUrl dv
    | none => false
  if dvHit then .ret directVideo
  else
    let iframeUrl := pickIframe env page url visited
    let iframeBranch : Option StepDecision :=
      match iframeUrl with
      | some iu =>
        if depth < maxDepth then
          if iframeNotToonstream iu && (isVideoPlayer iu || isVideoUrl iu) then
            some (.ret (some iu))
          else if iframeNotToonstream iu && strStartsWith iu "http" then
            some (.ret (some iu))
          else if needsFollow env iu then some (.recurse iu)
          else none
        else none
      | none => none
    match iframeBranch with
    | some d => d
    | none =>
      let scriptUrl := pickFromScripts env page url visited
      let scriptBranch : Option StepDecision :=
        match scriptUrl with
        | some su =>
          if isVideoUrl su then some (.ret (some su))
          else if needsFollow env su && decide (depth < maxDepth) then
            some (.recurse su)
          else none
        | none => none
      match scriptBranch with
      | some d => d
      | none =>
        match iframeUrl with
        | some iu =>
          if depth < maxDepth then .recurse iu
          else .ret (jsOr directVideo (some url))
        | none => .ret (jsOr directVideo (some url))

/-- Result of one `resolve` call: the returned value, the visited-set after
the call, and (instrumentation) the URLs for which `fetchHtmlWithRetry` was
invoked, in order. -/
structure ResolveOut where
  result : Option String
  visited : List String
  fetched : List String
deriving DecidableEq, Repr

/-- The `resolve` closure of `extractRealVideoUrl`, with an explicit fuel so
that the recursion is structural.  The fuel is invisible to the semantics:
recursion only happens while `depth < maxDepth`, and the entry point below
supplies fuel `maxDepth + 1 - depth`, which that guard can never exhaust. -/
def resolveGo (env : ResolveEnv) (maxDepth : Nat) :
    Nat → String → Nat → List String → ResolveOut
  | fuel, url, depth, visited =>
    if url = "" then ⟨none, visited, []⟩
    else if url ∈ visited then ⟨some url, visited, []⟩
    else if maxDepth < depth then ⟨some url, visited, []⟩
    else
      match fuel with
      | 0 => ⟨some url, visited, []⟩
      | fuel + 1 =>
        let visited1 := visited ++ [url]
        match env.fetch url with
        | none => ⟨none, visited1, [url]⟩
        | some page =>
          match resolveStep env maxDepth page url depth visited1 with
          | .ret r => ⟨r, visited1, [url]⟩
          | .recurse next =>
            let out := resolveGo env maxDepth fuel next (depth + 1) visited1
            ⟨out.result, out.visited, url :: out.fetched⟩

/-- One `resolve(url, depth)` call with visited-set `visited`. -/
def resolve (env : ResolveEnv) (maxDepth : Nat) (url : String) (depth : Nat)
    (visited : List String) : ResolveOut :=
  resolveGo env maxDepth (maxDepth + 1 - depth) url depth visited

/-- `extractRealVideoUrl(intermediateUrl)`: fresh visited-set, bound
`CONFIG.embedMaxDepth + 2`, entry at depth 0. -/
def extractRealVideoUrl (env : ResolveEnv) (embedMaxDepth : Nat)
    (intermediateUrl : String) : Option String :=
  (resolve env (embedMaxDepth + 2) intermediateUrl 0 []).result

/-! ## Series episode links: `extractSeriesEpisodeLinks` (source lines
507-542)

The cheerio selection `$('a[href*="/episode/"]')` is modelled as the input
anchor list in document order; `addLink` is the per-anchor closure, and the
final sort mirrors the comparator `(a, b) => a.season === b.season ?
a.episode - b.episode : a.season - b.season` (JS sorts stably; the
comparator never returns 0 on the deduplicated list anyway). -/

/-- ASCII whitespace for JavaScript `trim`. -/
def isJsWhitespace (c : Char) : Bool :=
  c = ' ' || c = '\t' || c = '\n' || c = '\r'

/-- JavaScript `s.trim()`. -/
def strTrim (s : String) : String :=
  String.mk (((s.toList.dropWhile isJsWhitespace).reverse.dropWhile
    isJsWhitespace).reverse)

/-- The first `<img>` inside an anchor, as `addLink` reads it. -/
structure AnchorImg where
  dataSrc : Option String
  src : Option String
deriving DecidableEq, Repr

/-- One anchor from the `a[href*="/episode/"]` selection. -/
structure AnchorEl where
  href : Option String
  text : String
  img : Option AnchorImg
deriving DecidableEq, Repr

/-- One entry of the returned links list. -/
structure EpisodeLink where
  url : String
  season : Nat
  episode : Nat
  title : String
  thumb : Option String
deriving DecidableEq, Repr

/-- The dedup key `` `${code.season}x${code.episode}` ``. -/
def seKey (season episode : Nat) : String :=
  toString season ++ "x" ++ toString episode

/-- The `addLink` closure: normalize the href, require `/episode/` and a
parsable episode code, and build the record with trimmed text and the
image's `data-src || src` thumb. -/
def addLink (env : ResolveEnv) (seriesUrl : String) (anchor : AnchorEl) :
    Option EpisodeLink :=
  match normalizeUrl env anchor.href seriesUrl with
  | none => none
  | some url =>
    if url = "" ∨ strContains url "/episode/" = false then none
    else
      match parseEpisodeCode url with
      | none => none
      | some code =>
        some ⟨url, code.season, code.episode, strTrim anchor.text,
          match anchor.img with
          | some img => normalizeUrl env (jsOr img.dataSrc img.src) seriesUrl
          | none => none⟩

/-- The anchor loop with the `seen` key set: first occurrence of each
season-episode key wins. -/
def collectLinks (env : ResolveEnv) (seriesUrl : String) :
    List AnchorEl → List String → List EpisodeLink
  | [], _ => []
  | a :: rest, seen =>
    match addLink env seriesUrl a with
    | none => collectLinks env seriesUrl rest seen
    | some link =>
      let key := seKey link.season link.episode
      if key ∈ seen then collectLinks env seriesUrl rest seen
      else link :: collectLinks env seriesUrl rest (key :: seen)

/-- The sort comparator as a boolean `≤`: `a` before (or equal to) `b`,
i.e. `comparator(a, b) <= 0`. -/
def episodeLe (a b : EpisodeLink) : Bool :=
  if a.season = b.season then decide (a.episode ≤ b.episode)
  else decide (a.season ≤ b.season)

/-- The comparator as a relation, for sorting.  JavaScript
`Array.prototype.sort` is a stable sort consistent with the comparator;
on the deduplicated list the comparator never ties, so the result is the
unique sorted permutation and any correct sorting algorithm models it. -/
def episodeLeR (a b : EpisodeLink) : Prop := episodeLe a b = true

instance : DecidableRel episodeLeR :=
  fun a b => inferInstanceAs (Decidable (episodeLe a b = true))

instance : IsTrans EpisodeLink episodeLeR where
  trans a b c h1 h2 := by
    simp only [episodeLeR, episodeLe] at h1 h2 ⊢
    split at h1 <;> split at h2 <;> split <;> simp_all <;> omega

instance : IsTotal EpisodeLink episodeLeR where
  total a b := by
    simp only [episodeLeR, episodeLe]
    by_cases h : a.season = b.season
    · simp [h]
      omega
    · simp [h, Ne.symm h]
      omega

/-- `extractSeriesEpisodeLinks(seriesHtml, seriesUrl)`: collect, dedup,
sort ascending by (season, episode). -/
def extractSeriesEpisodeLinks (env : ResolveEnv) (anchors : List AnchorEl)
    (seriesUrl : String) : List EpisodeLink :=
  List.insertionSort episodeLeR (collectLinks env seriesUrl anchors [])

/-- Anchor list for the C9 witness scenario: four episode anchors, out of
order and with one duplicate key. -/
def demoAnchors : List AnchorEl :=
  [⟨some "https://toonstream.one/episode/naruto-2x1/", "Ep 2x1", none⟩,
   ⟨some "https://toonstream.one/episode/naruto-1x2/", "Ep 1x2", none⟩,
   ⟨some "https://toonstream.one/episode/naruto-1x2/?ref=dup", "Ep 1x2 dup", none⟩,
   ⟨some "https://toonstream.one/episode/naruto-1x1/", "Ep 1x1", none⟩]

/-- Web for the C9 witness scenario: hrefs resolve to themselves. -/
def demoLinkEnv : ResolveEnv where
  urlResolve := fun raw _ => some raw
  hostnameOf := fun _ => some "toonstream.one"
  fetch := fun _ => none

/-- The deduplicated 1x2 link of the C9 witness scenario (document-order
first occurrence of its key). -/
def demoLink12 : EpisodeLink :=
  ⟨"https://toonstream.one/episode/naruto-1x2/", 1, 2, "Ep 1x2", none⟩

/-! ## Cloudflare Worker variant (`src/index.js`)

The worker counts outbound page fetches in a module-level
`subrequestCount`; `runSync` resets it and every `fetchHtml` either
increments it or throws at the cap.  The `fetch` transport and the regex
extractors over raw HTML are abstracted into a per-URL page oracle; the
Supabase client (not counted against the cap) is a pure oracle.  The state
additionally carries `fetchLog`, an instrumentation list of the URLs
fetched since the last reset. -/

/-- `MAX_SUBREQUESTS` (line 3). -/
def MAX_SUBREQUESTS : Nat := 45

/-- One entry of `extractEpisodesFromHomepage`'s result. -/
structure WEpisode where
  id : String
  anime : String
  animeSlug : String
  season : Nat
  episode : Nat
  url : String
deriving DecidableEq, Repr

/-- What the worker's regex extractors read off one fetched page:
homepage episode links, trembed iframe URLs, the raw iframe `src` matches
of `resolveVideoUrl`, and the `location` redirect match. -/
structure WPage where
  episodes : List WEpisode
  trembedUrls : List String
  iframes : List String
  locationRedirect : Option String
deriving DecidableEq, Repr

/-- Worker oracles: page contents per URL (`none` = non-ok HTTP response),
and the Supabase lookups and upsert outcome. -/
structure WorkerEnv where
  page : String → Option WPage
  episodeExists : String → Nat → Nat → Bool
  seriesExists : String → Bool
  upsertFails : String → Bool

/-- The worker's mutable state: the subrequest counter, the instrumented
fetch log, and the `PROGRESS` KV value `sync_progress.last_index`. -/
structure WState where
  subrequestCount : Nat
  fetchLog : List String
  progress : Option Nat
deriving DecidableEq, Repr

/-- `canFetch()` (lines 15-17). -/
def canFetch (st : WState) : Bool :=
  decide (st.subrequestCount < MAX_SUBREQUESTS)

/-- `fetchHtml(url)` (lines 19-39): throw at the cap without issuing a
request, else count and issue the request; a non-ok response throws after
the subrequest was already spent. -/
def fetchHtml (env : WorkerEnv) (url : String) (st : WState) :
    Except String WPage × WState :=
  if canFetch st = false then (.error "Subrequest limit reached", st)
  else
    let st' : WState :=
      { st with subrequestCount := st.subrequestCount + 1,
                fetchLog := st.fetchLog ++ [url] }
    match env.page url with
    | some page => (.ok page, st')
    | none => (.error "HTTP error", st')

/-- `'https:' + url` fix for protocol-relative URLs. -/
def fixProtocol (u : String) : String :=
  if strStartsWith u "//" then "https:" ++ u else u

/-- The worker's externality test: no `toonstream.one`, `trembed` or
`trid=` substring (line 123). -/
def wExternal (u : String) : Bool :=
  !strContains u "toonstream.one" && !strContains u "trembed" &&
  !strContains u "trid="

/-- The iframe loop of `resolveVideoUrl` (lines 116-132): return the first
external URL; recurse (via `recurse`, the depth+1 resolver) into redirector
URLs, keeping the first non-null answer. -/
def wIframeScan (recurse : String → WState → Option String × WState) :
    List String → WState → Option String × WState
  | [], st => (none, st)
  | raw :: rest, st =>
    let embedUrl := fixProtocol raw
    if wExternal embedUrl then (some embedUrl, st)
    else if strContains embedUrl "trembed" || strContains embedUrl "trid=" then
      match recurse embedUrl st with
      | (some r, st') => (some r, st')
      | (none, st') => wIframeScan recurse rest st'
    else wIframeScan recurse rest st

/-- `resolveVideoUrl(trembedUrl, depth)` (lines 105-153), with a structural
fuel: recursion only happens at `depth + 1` under the `depth > 3` guard, so
the entry point's fuel of 5 is never exhausted. -/
def resolveVideoUrlGo (env : WorkerEnv) :
    Nat → String → Nat → WState → Option String × WState
  | 0, _, _, st => (none, st)
  | fuel + 1, trembedUrl, depth, st =>
    if 3 < depth ∨ canFetch st = false then (none, st)
    else
      match fetchHtml env trembedUrl st with
      | (.error _, st') => (none, st')
      | (.ok page, st') =>
        match wIframeScan (fun u s => resolveVideoUrlGo env fuel u (depth + 1) s)
            page.iframes st' with
        | (some u, st'') => (some u, st'')
        | (none, st'') =>
          match page.locationRedirect with
          | some raw =>
            let redirectUrl := fixProtocol raw
            if !strContains redirectUrl "toonstream.one"
                && !strContains redirectUrl "trembed" then
              (some redirectUrl, st'')
            else (none, st'')
          | none => (none, st'')

/-- `resolveVideoUrl(trembedUrl, 0)`. -/
def resolveVideoUrl (env : WorkerEnv) (trembedUrl : String) (st : WState) :
    Option String × WState :=
  resolveVideoUrlGo env 5 trembedUrl 0 st

/-- The server-option loop of `runSync` (lines 257-266): stop at the cap,
else resolve each trembed URL until one succeeds. -/
def serverLoop (env : WorkerEnv) :
    List String → WState → Option String × WState
  | [], st => (none, st)
  | t :: rest, st =>
    if canFetch st = false then (none, st)
    else
      match resolveVideoUrl env t st with
      | (some v, st') => (some v, st')
      | (none, st') => serverLoop env rest st'

/-- `saveProgress(env, i)`. -/
def saveProgress (i : Nat) (st : WState) : WState :=
  { st with progress := some i }

/-- `getProgress(env).last_index`, defaulting to 0. -/
def getProgress (st : WState) : Nat := st.progress.getD 0

/-- The episode loop of `runSync` (lines 209-325): cap check before each
iteration and again before the episode-page fetch, saving the resume index
and breaking instead of exceeding the cap; skip existing episodes; drop
episodes whose page fails, has no servers, or resolves no video; upsert the
rest.  Returns (synced, skipped, processedIndex). -/
def episodeLoop (env : WorkerEnv) :
    List WEpisode → Nat → Nat → Nat → Nat → WState → (Nat × Nat × Nat) × WState
  | [], _i, synced, skipped, processedIndex, st =>
    ((synced, skipped, processedIndex), st)
  | ep :: rest, i, synced, skipped, processedIndex, st =>
    if canFetch st = false then
      ((synced, skipped, processedIndex), saveProgress i st)
    else if env.episodeExists ep.animeSlug ep.season ep.episode then
      episodeLoop env rest (i + 1) synced (skipped + 1) i st
    else if canFetch st = false then
      ((synced, skipped, i), saveProgress i st)
    else
      match fetchHtml env ep.url st with
      | (.error _, st') => episodeLoop env rest (i + 1) synced skipped i st'
      | (.ok page, st') =>
        if page.trembedUrls.isEmpty then
          episodeLoop env rest (i + 1) synced skipped i st'
        else
          match serverLoop env page.trembedUrls st' with
          | (none, st'') => episodeLoop env rest (i + 1) synced skipped i st''
          | (some _v, st'') =>
            if env.upsertFails ep.id then
              episodeLoop env rest (i + 1) synced skipped i st''
            else
              episodeLoop env rest (i + 1) (synced + 1) skipped i st''

/-- `runSync(env)` (lines 171-341): reset the counter (and the fetch-log
instrumentation), fetch the homepage, loop from the saved resume index, and
reset the saved progress once the end of the list was reached.  The
returned statistics object is not modelled; the claim concerns the fetch
accounting. -/
def runSync (env : WorkerEnv) (st0 : WState) : WState :=
  let st : WState := { st0 with subrequestCount := 0, fetchLog := [] }
  match fetchHtml env "https://toonstream.one/" st with
  | (.error _, st') => st'
  | (.ok page, st') =>
    let episodes := page.episodes
    if episodes.isEmpty then st'
    else
      let progress := getProgress st'
      let startIndex := if episodes.length ≤ progress then 0 else progress
      let out := episodeLoop env (episodes.drop startIndex) startIndex 0 0
        startIndex st'
      if episodes.length - 1 ≤ out.1.2.2 then saveProgress 0 out.2 else out.2

/-- The worker fetch-accounting invariant: the counter equals the number of
fetches logged since the last reset, and stays within the cap. -/
def WInv (st : WState) : Prop :=
  st.subrequestCount = st.fetchLog.length ∧ st.subrequestCount ≤ MAX_SUBREQUESTS

/-- A worker state already at the subrequest cap. -/
def wStateAtCap : WState := ⟨45, List.replicate 45 "https://toonstream.one/", none⟩

/-- A fresh worker state. -/
def wStateFresh : WState := ⟨7, ["stale"], some 2⟩

/-- The single homepage episode of the C10 witness web. -/
def demoWEpisode : WEpisode :=
  ⟨"naruto-s1e1", "Naruto", "naruto", 1, 1,
   "https://toonstream.one/episode/naruto-1x1/"⟩

/-- A one-episode worker web for the C10 witness. -/
def wDemoEnv : WorkerEnv where
  page := fun u =>
    if u = "https://toonstream.one/" then
      some ⟨[demoWEpisode], [], [], none⟩
    else if u = "https://toonstream.one/episode/naruto-1x1/" then
      some ⟨[], ["https://toonstream.one/?trembed=0&trid=3&trtype=2"], [], none⟩
    else if u = "https://toonstream.one/?trembed=0&trid=3&trtype=2" then
      some ⟨[], [], ["https://streamtape.com/e/xyz"], none⟩
    else none
  episodeExists := fun _ _ _ => false
  seriesExists := fun _ => false
  upsertFails := fun _ => false

/-! ### Concrete environments used by witnesses and counterexamples -/

/-- A page whose only content is one iframe pointing at `next`. -/
def cycPage (next : String) : EmbedPage := ⟨[], [⟨some next, none, none⟩], []⟩

/-- A two-page web with the iframe cycle `A → B → A`, both on the source
site. -/
def cycEnv : ResolveEnv where
  urlResolve := fun raw _ => some raw
  hostnameOf := fun _ => some "toonstream.one"
  fetch := fun u =>
    if u = "A" then some (cycPage "B")
    else if u = "B" then some (cycPage "A") else none

/-- A web where every fetch fails (all retries exhausted). -/
def noFetchEnv : ResolveEnv where
  urlResolve := fun raw _ => some raw
  hostnameOf := fun _ => some "toonstream.one"
  fetch := fun _ => none

/-- Starting URL for the direct-video tie-break scenarios. -/
def c3Start : String := "https://toonstream.one/?trembed=0&trid=1&trtype=2"

/-- A page with a direct `<video>` whose source is a non-`blob:` URL that
does not match the video heuristic, next to an external iframe. -/
def c3Page : EmbedPage :=
  ⟨[⟨some "https://example.com/movie", none⟩],
   [⟨some "https://ads.example.net/frame", none, none⟩], []⟩

/-- Web serving `c3Page` at `c3Start`. -/
def c3Env : ResolveEnv where
  urlResolve := fun raw _ => some raw
  hostnameOf := fun _ => none
  fetch := fun u => if u = c3Start then some c3Page else none

/-- Starting URL for the direct-video witness scenario. -/
def c3wStart : String := "https://toonstream.one/?trembed=1&trid=1&trtype=2"

/-- A page with both a direct `<video src="….mp4">` and an external
iframe. -/
def c3wPage : EmbedPage :=
  ⟨[⟨some "https://cdn.example.com/x.mp4", none⟩],
   [⟨some "https://ads.example.net/frame", none, none⟩], []⟩

/-- Web serving `c3wPage` at `c3wStart`. -/
def c3wEnv : ResolveEnv where
  urlResolve := fun raw _ => some raw
  hostnameOf := fun _ => none
  fetch := fun u => if u = c3wStart then some c3wPage else none

/-- Starting URL for the external-iframe counterexample. -/
def c4Start : String := "https://toonstream.one/?trembed=1&trid=9&trtype=2"

/-- An off-site iframe URL that still carries the `trembed` redirector
marker. -/
def c4Mid : String := "https://evil.example/?trembed=0"

/-- First hop page: only iframe is `c4Mid`. -/
def c4Page1 : EmbedPage := ⟨[], [⟨some c4Mid, none, none⟩], []⟩

/-- Second hop page: only iframe is a clean external URL. -/
def c4Page2 : EmbedPage := ⟨[], [⟨some "https://third.example/x", none, none⟩], []⟩

/-- Web with the chain `c4Start → c4Mid → third.example`; `c4Mid`'s host is
`evil.example`, off the source site. -/
def c4Env : ResolveEnv where
  urlResolve := fun raw _ => some raw
  hostnameOf := fun u =>
    if u = c4Mid then some "evil.example" else some "toonstream.one"
  fetch := fun u =>
    if u = c4Start then some c4Page1
    else if u = c4Mid then some c4Page2 else none

/-- Starting URL for the allowlisted-external-iframe witness. -/
def c4wStart : String := "https://toonstream.one/?trembed=2&trid=11&trtype=2"

/-- A page whose only iframe points at an allowlisted `streamtape` host. -/
def c4wPage : EmbedPage :=
  ⟨[], [⟨some "https://streamtape.com/e/abcd", none, none⟩], []⟩

/-- Web serving `c4wPage` at `c4wStart`. -/
def c4wEnv : ResolveEnv where
  urlResolve := fun raw _ => some raw
  hostnameOf := fun u =>
    if strStartsWith u "https://streamtape" then some "streamtape.com"
    else some "toonstream.one"
  fetch := fun u => if u = c4wStart then some c4wPage else none


/-! ## Theorems -/

/-- The visited-set only grows, every URL in the fetch trace is fetched at
most once, was unvisited at call entry, and ends up in the visited-set. -/
theorem resolveGo_fetched (env : ResolveEnv) (maxd : Nat) :
    ∀ (fuel : Nat) (url : String) (depth : Nat) (visited : List String),
      (∃ ext, (resolveGo env maxd fuel url depth visited).visited = visited ++ ext)
      ∧ (resolveGo env maxd fuel url depth visited).fetched.Nodup
      ∧ ∀ u ∈ (resolveGo env maxd fuel url depth visited).fetched,
          u ∉ visited ∧ u ∈ (resolveGo env maxd fuel url depth visited).visited := by
  intro fuel
  induction fuel with
  | zero =>
    intro url depth visited
    simp only [resolveGo]
    split
    · exact ⟨⟨[], by simp⟩, by simp, by simp⟩
    · split
      · exact ⟨⟨[], by simp⟩, by simp, by simp⟩
      · split
        · exact ⟨⟨[], by simp⟩, by simp, by simp⟩
        · exact ⟨⟨[], by simp⟩, by simp, by simp⟩
  | succ fuel ih =>
    intro url depth visited
    simp only [resolveGo]
    split
    · exact ⟨⟨[], by simp⟩, by simp, by simp⟩
    · rename_i hne
      split
      · exact ⟨⟨[], by simp⟩, by simp, by simp⟩
      · rename_i hnv
        split
        · exact ⟨⟨[], by simp⟩, by simp, by simp⟩
        · rename_i hnd
          cases hf : env.fetch url with
          | none =>
            refine ⟨⟨[url], by simp⟩, by simp, ?_⟩
            intro u hu
            simp at hu
            subst hu
            exact ⟨hnv, by simp⟩
          | some page =>
            cases hs : resolveStep env maxd page url depth (visited ++ [url]) with
            | ret r =>
              simp only [hs]
              refine ⟨⟨[url], by simp⟩, by simp, ?_⟩
              intro u hu
              simp at hu
              subst hu
              exact ⟨hnv, by simp⟩
            | recurse next =>
              simp only [hs]
              obtain ⟨⟨ext, hext⟩, hnd', hmem⟩ := ih next (depth + 1) (visited ++ [url])
              refine ⟨⟨url :: ext, by simpa using hext⟩, ?_, ?_⟩
              · refine List.nodup_cons.mpr ⟨?_, hnd'⟩
                intro hurl
                exact absurd ((hmem url hurl).1) (by simp)
              · intro u hu
                rcases List.mem_cons.mp hu with h | h
                · subst h
                  refine ⟨hnv, ?_⟩
                  rw [hext]
                  simp
                · obtain ⟨h1, h2⟩ := hmem u h
                  refine ⟨fun hv => h1 (by simp [hv]), h2⟩

/-- A nonempty URL already in the visited-set returns as-is without
fetching. -/
theorem resolve_visited_hit (env : ResolveEnv) (maxd : Nat) (url : String)
    (depth : Nat) (visited : List String) (h1 : url ≠ "") (h2 : url ∈ visited) :
    resolve env maxd url depth visited = ⟨some url, visited, []⟩ := by
  unfold resolve resolveGo
  simp [h1, h2]

/-- A depth beyond the bound returns the current URL as-is without
fetching. -/
theorem resolve_depth_exceeded (env : ResolveEnv) (maxd : Nat) (url : String)
    (depth : Nat) (visited : List String) (h1 : url ≠ "") (h2 : url ∉ visited)
    (h3 : maxd < depth) :
    resolve env maxd url depth visited = ⟨some url, visited, []⟩ := by
  unfold resolve resolveGo
  have hfuel : maxd + 1 - depth = 0 := by omega
  simp [h1, h2, h3, hfuel]

/-- One unfolding of `resolve` on a fresh URL within the depth bound. -/
theorem resolve_unfold (env : ResolveEnv) (maxd : Nat) (url : String)
    (depth : Nat) (visited : List String) (h1 : url ≠ "") (h2 : url ∉ visited)
    (h3 : depth ≤ maxd) :
    resolve env maxd url depth visited =
      match env.fetch url with
      | none => ⟨none, visited ++ [url], [url]⟩
      | some page =>
        match resolveStep env maxd page url depth (visited ++ [url]) with
        | .ret r => ⟨r, visited ++ [url], [url]⟩
        | .recurse next =>
          let out := resolve env maxd next (depth + 1) (visited ++ [url])
          ⟨out.result, out.visited, url :: out.fetched⟩ := by
  have hfuel : maxd + 1 - depth = (maxd - depth) + 1 := by omega
  have hfuel' : maxd + 1 - (depth + 1) = maxd - depth := by omega
  have h3' : ¬ maxd < depth := by omega
  unfold resolve
  rw [hfuel, hfuel', resolveGo]
  simp only [h1, h2, h3', if_neg, if_false, ite_false]

/-- A direct video passing the heuristic decides the hop immediately. -/
theorem resolveStep_directVideo (env : ResolveEnv) (maxd : Nat)
    (page : EmbedPage) (url : String) (depth : Nat) (visited : List String)
    (dv : String) (h5 : pickDirectVideo env page url = some dv)
    (h6 : isVideoUrl dv = true) :
    resolveStep env maxd page url depth visited = .ret (some dv) := by
  unfold resolveStep
  simp [h5, h6]

/-- A marker-free `http` iframe decides the hop immediately when no direct
video passes the heuristic and the depth is below the bound. -/
theorem resolveStep_externalIframe (env : ResolveEnv) (maxd : Nat)
    (page : EmbedPage) (url : String) (depth : Nat) (visited : List String)
    (iu : String)
    (h5 : Option.all (fun dv => !isVideoUrl dv) (pickDirectVideo env page url) = true)
    (h6 : pickIframe env page url visited = some iu)
    (h7 : iframeNotToonstream iu = true)
    (h8 : strStartsWith iu "http" = true)
    (hd : depth < maxd) :
    resolveStep env maxd page url depth visited = .ret (some iu) := by
  unfold resolveStep
  cases hpd : pickDirectVideo env page url with
  | none =>
    simp only [hpd, h6, hd, if_true, Bool.false_eq_true, if_false]
    by_cases hvp : (isVideoPlayer iu || isVideoUrl iu) = true
    · simp [h7, hvp]
    · simp [h7, h8, hvp]
  | some dv =>
    rw [hpd] at h5
    simp only [Option.all_some, Bool.not_eq_true'] at h5
    simp only [hpd, h5, h6, hd, if_true, Bool.false_eq_true, if_false]
    by_cases hvp : (isVideoPlayer iu || isVideoUrl iu) = true
    · simp [h7, hvp]
    · simp [h7, h8, hvp]

/-- C1: one `resolve` call of `extractRealVideoUrl` (a total function here,
so it terminates on every input) never fetches any URL twice: its fetch
trace has no duplicates, every fetched URL was outside the visited-set at
entry and is inside it afterwards (added before its page is fetched), and a
nonempty URL already visited, or a depth beyond the bound
`CONFIG.embedMaxDepth + 2`, returns the current URL as-is instead of
failing. -/
theorem claim_C1 (env : ResolveEnv) (embedMaxDepth : Nat) (url : String)
    (depth : Nat) (visited : List String) :
    ((resolve env (embedMaxDepth + 2) url depth visited).fetched.Nodup
      ∧ ∀ u ∈ (resolve env (embedMaxDepth + 2) url depth visited).fetched,
          u ∉ visited ∧ u ∈ (resolve env (embedMaxDepth + 2) url depth visited).visited)
    ∧ (url ≠ "" → url ∈ visited →
        resolve env (embedMaxDepth + 2) url depth visited = ⟨some url, visited, []⟩)
    ∧ (url ≠ "" → url ∉ visited → embedMaxDepth + 2 < depth →
        resolve env (embedMaxDepth + 2) url depth visited = ⟨some url, visited, []⟩) := by
  refine ⟨?_, ?_, ?_⟩
  · exact ⟨(resolveGo_fetched env (embedMaxDepth + 2) _ url depth visited).2.1,
      (resolveGo_fetched env (embedMaxDepth + 2) _ url depth visited).2.2⟩
  · intro h1 h2
    exact resolve_visited_hit env (embedMaxDepth + 2) url depth visited h1 h2
  · intro h1 h2 h3
    exact resolve_depth_exceeded env (embedMaxDepth + 2) url depth visited h1 h2 h3

/-- Witness for C1 on the cyclic web `A → B → A`: the call terminates after
fetching each page once, a visited URL returns as-is, and an excessive
depth returns as-is. -/
theorem claim_C1_witness :
    ((resolve cycEnv (3 + 2) "A" 0 []).fetched.Nodup
      ∧ ∀ u ∈ (resolve cycEnv (3 + 2) "A" 0 []).fetched,
          u ∉ ([] : List String) ∧ u ∈ (resolve cycEnv (3 + 2) "A" 0 []).visited)
    ∧ resolve cycEnv (3 + 2) "A" 2 ["A"] = ⟨some "A", ["A"], []⟩
    ∧ resolve cycEnv (3 + 2) "A" 9 [] = ⟨some "A", [], []⟩ :=
  ⟨(claim_C1 cycEnv 3 "A" 0 []).1,
   (claim_C1 cycEnv 3 "A" 2 ["A"]).2.1 (by decide) (by decide),
   (claim_C1 cycEnv 3 "A" 9 []).2.2 (by decide) (by decide) (by decide)⟩

/-- C2: when the fetch of the current URL fails (all retries exhausted),
the `resolve` call for that URL returns `none` — never the unfetchable URL
itself — and, the function being total, the failure surfaces as a value,
not an exception. -/
theorem claim_C2 (env : ResolveEnv) (embedMaxDepth : Nat) (url : String)
    (depth : Nat) (visited : List String) (h1 : url ≠ "") (h2 : url ∉ visited)
    (h3 : depth ≤ embedMaxDepth + 2) (h4 : env.fetch url = none) :
    resolve env (embedMaxDepth + 2) url depth visited
      = ⟨none, visited ++ [url], [url]⟩ := by
  rw [resolve_unfold env (embedMaxDepth + 2) url depth visited h1 h2 h3]
  simp [h4]

/-- Witness for C2: in a web where every fetch fails, resolution of a
trembed URL returns `none`. -/
theorem claim_C2_witness :
    resolve noFetchEnv (3 + 2) "https://toonstream.one/?trembed=0&trid=7&trtype=2" 0 []
      = ⟨none, ["https://toonstream.one/?trembed=0&trid=7&trtype=2"],
          ["https://toonstream.one/?trembed=0&trid=7&trtype=2"]⟩ :=
  claim_C2 noFetchEnv 3 "https://toonstream.one/?trembed=0&trid=7&trtype=2" 0 []
    (by decide) (by decide) (by decide) rfl

/-- Counterexample to C3 as stated: `c3Page` contains a `<video>` whose
`src` normalizes to the non-`blob:` URL `https://example.com/movie`, yet
the resolver returns the external iframe URL instead, because the direct
video is returned immediately only when it also matches the `isVideoUrl`
heuristic. -/
theorem claim_C3_counterexample :
    pickDirectVideo c3Env c3Page c3Start = some "https://example.com/movie"
    ∧ strStartsWith "https://example.com/movie" "blob:" = false
    ∧ isVideoUrl "https://example.com/movie" = false
    ∧ (resolve c3Env (3 + 2) c3Start 0 []).result
        = some "https://ads.example.net/frame" := by
  exact ⟨by decide, by decide, by decide, by decide⟩

/-- C3 (amended): when the first `video`/`source` element normalizing to a
non-`blob:` URL also matches the video-URL heuristic, the resolver returns
that URL immediately, after a single fetch, before any iframe or script
candidate; without the heuristic the direct video only serves as the final
fallback. -/
theorem claim_C3 (env : ResolveEnv) (embedMaxDepth : Nat) (url : String)
    (depth : Nat) (visited : List String) (page : EmbedPage) (dv : String)
    (h1 : url ≠ "") (h2 : url ∉ visited) (h3 : depth ≤ embedMaxDepth + 2)
    (h4 : env.fetch url = some page)
    (h5 : pickDirectVideo env page url = some dv)
    (h6 : isVideoUrl dv = true) :
    resolve env (embedMaxDepth + 2) url depth visited
      = ⟨some dv, visited ++ [url], [url]⟩ := by
  simp only [resolve_unfold env (embedMaxDepth + 2) url depth visited h1 h2 h3, h4,
    resolveStep_directVideo env (embedMaxDepth + 2) page url depth
      (visited ++ [url]) dv h5 h6]

/-- Witness for C3 (amended): a page with both a direct
`<video src="….mp4">` and an external iframe resolves to the video URL in
one fetch. -/
theorem claim_C3_witness :
    resolve c3wEnv (3 + 2) c3wStart 0 []
      = ⟨some "https://cdn.example.com/x.mp4", [c3wStart], [c3wStart]⟩ :=
  claim_C3 c3wEnv 3 c3wStart 0 [] c3wPage "https://cdn.example.com/x.mp4"
    (by decide) (by decide) (by decide) (by decide) (by decide) (by decide)

/-- Counterexample to C4 as stated: the first iframe of `c4Page1` points at
`c4Mid`, whose host `evil.example` is off the source site, yet resolution
does not return it — it fetches `c4Mid` (it appears in the fetch trace) and
returns a different URL, because the code treats the substring markers
`trembed`/`trid=`/`trtype=` as same-site regardless of host. -/
theorem claim_C4_counterexample :
    c4Env.hostnameOf c4Mid = some "evil.example"
    ∧ pickIframe c4Env c4Page1 c4Start [c4Start] = some c4Mid
    ∧ resolve c4Env (3 + 2) c4Start 0 []
        = ⟨some "https://third.example/x", [c4Start, c4Mid], [c4Start, c4Mid]⟩ := by
  exact ⟨by decide, by decide, by decide⟩

/-- C4 (amended): when the first usable iframe URL carries none of the
source-site or redirector markers (`toonstream.one`, `trembed`, `trid=`,
`trtype=`), starts with `http`, the depth is below the bound, and no direct
video passes the heuristic, resolution returns the iframe URL immediately
after the single fetch of the containing page — whether or not the host is
on the known-player allowlist or matches the video heuristic. -/
theorem claim_C4 (env : ResolveEnv) (embedMaxDepth : Nat) (url : String)
    (depth : Nat) (visited : List String) (page : EmbedPage) (iu : String)
    (h1 : url ≠ "") (h2 : url ∉ visited) (h3 : depth < embedMaxDepth + 2)
    (h4 : env.fetch url = some page)
    (h5 : Option.all (fun dv => !isVideoUrl dv) (pickDirectVideo env page url) = true)
    (h6 : pickIframe env page url (visited ++ [url]) = some iu)
    (h7 : iframeNotToonstream iu = true)
    (h8 : strStartsWith iu "http" = true) :
    resolve env (embedMaxDepth + 2) url depth visited
      = ⟨some iu, visited ++ [url], [url]⟩ := by
  simp only [resolve_unfold env (embedMaxDepth + 2) url depth visited h1 h2
      (Nat.le_of_lt h3), h4,
    resolveStep_externalIframe env (embedMaxDepth + 2) page url depth
      (visited ++ [url]) iu h5 h6 h7 h8 h3]

/-- Witness for C4 (amended): a page whose only iframe points at an
allowlisted `streamtape` host resolves to that URL unchanged in a single
hop. -/
theorem claim_C4_witness :
    resolve c4wEnv (3 + 2) c4wStart 0 []
      = ⟨some "https://streamtape.com/e/abcd", [c4wStart], [c4wStart]⟩ :=
  claim_C4 c4wEnv 3 c4wStart 0 [] c4wPage "https://streamtape.com/e/abcd"
    (by decide) (by decide) (by decide) (by decide) (by decide) (by decide)
    (by decide) (by decide)

/-- `hasDigitXDigit` unfolds to the head triple or the tail. -/
theorem hasDigitXDigit_cons (c : Char) (rest : List Char) :
    hasDigitXDigit (c :: rest) = (headTriple (c :: rest) || hasDigitXDigit rest) := by
  match rest with
  | [] => simp [hasDigitXDigit, headTriple]
  | [b] => simp [hasDigitXDigit, headTriple]
  | b :: c2 :: r => rfl

/-- Two leading digits: the anchored regex match succeeds at the first
exactly when it succeeds at the second. -/
theorem matchDxDAt_cons_digit (a b : Char) (rest' : List Char)
    (ha : a.isDigit = true) (hb : b.isDigit = true) :
    (matchDxDAt (a :: b :: rest')).isSome = (matchDxDAt (b :: rest')).isSome := by
  simp only [matchDxDAt, List.takeWhile_cons, List.dropWhile_cons, ha, hb,
    if_true, List.isEmpty_cons]
  cases List.dropWhile Char.isDigit rest' with
  | nil => rfl
  | cons x r2 =>
    by_cases hx : x = 'x' ∨ x = 'X'
    · simp only [hx, if_true]
      by_cases he : (List.takeWhile Char.isDigit r2).isEmpty <;> simp [he]
    · simp [hx]

/-- A successful anchored match implies a digit-x-digit triple. -/
theorem matchDxDAt_hasDxD :
    ∀ l : List Char, (matchDxDAt l).isSome → hasDigitXDigit l = true := by
  intro l
  induction l with
  | nil => intro h; simp [matchDxDAt] at h
  | cons a rest ih =>
    intro h
    by_cases ha : a.isDigit
    · match rest with
      | [] => simp [matchDxDAt, ha, List.takeWhile, List.dropWhile] at h
      | b :: rest' =>
        by_cases hb : b.isDigit
        · have hsub : (matchDxDAt (b :: rest')).isSome := by
            rw [← matchDxDAt_cons_digit a b rest' ha hb]
            exact h
          rw [hasDigitXDigit_cons]
          simp [ih hsub]
        · simp only [matchDxDAt, List.takeWhile_cons, List.dropWhile_cons, ha, hb,
            if_true, if_false, List.isEmpty_cons] at h
          match hr : rest' with
          | [] => simp_all [List.takeWhile]
          | c2 :: r2 =>
            by_cases hx : b = 'x' ∨ b = 'X'
            · by_cases hc2 : c2.isDigit
              · rw [hasDigitXDigit_cons]
                have : headTriple (a :: b :: c2 :: r2) = true := by
                  simp [headTriple, ha, hc2]
                  rcases hx with h' | h' <;> simp [h']
                simp [this]
              · simp [hx, List.takeWhile_cons, hc2] at h
            · simp [hx] at h
    · simp [matchDxDAt, List.takeWhile_cons, ha] at h

/-- A digit-x-digit triple at the head makes the anchored match succeed. -/
theorem headTriple_matchDxDAt :
    ∀ l : List Char, headTriple l = true → (matchDxDAt l).isSome := by
  intro l h
  match l with
  | a :: b :: c :: r =>
    simp only [headTriple, Bool.and_eq_true, Bool.or_eq_true, decide_eq_true_eq] at h
    obtain ⟨⟨ha, hx⟩, hc⟩ := h
    have hb : b.isDigit = false := by
      rcases hx with h' | h' <;> simp [h']
    simp only [matchDxDAt, List.takeWhile_cons, List.dropWhile_cons, ha, hb,
      if_true, if_false, List.isEmpty_cons, hc]
    have hx' : (b = 'x' ∨ b = 'X') := hx
    simp [hx', hc]

/-- The leftmost regex search succeeds exactly when a digit-x-digit triple
occurs in the list. -/
theorem findDxD_isSome (l : List Char) : (findDxD l).isSome = hasDigitXDigit l := by
  induction l with
  | nil => rfl
  | cons c rest ih =>
    unfold findDxD
    cases hm : matchDxDAt (c :: rest) with
    | some p =>
      have hA := matchDxDAt_hasDxD (c :: rest) (by simp [hm])
      simp [hA]
    | none =>
      have hB : headTriple (c :: rest) = false := by
        by_contra hcon
        have := headTriple_matchDxDAt (c :: rest) (by simpa using hcon)
        rw [hm] at this
        simp at this
      rw [hasDigitXDigit_cons]
      simp [hB, ih]

/-- Counterexample to C5 as stated: on `"0x0"` the code returns the pair
`{season 0, episode 0}` although the input does not match the slug pattern
`<text>-<digits>x<digits>` with positive components (there is no dash and
no leading text, and the components are zero). -/
theorem claim_C5_counterexample :
    parseEpisodeCode "0x0" = some ⟨0, 0⟩ ∧ specSlugPattern "0x0" = false := by
  exact ⟨by decide, by decide⟩

/-- C5 (amended): `parseEpisodeCode` returns a pair exactly when the input
contains a digit immediately followed by `x` (or `X`) and a digit, anywhere
in the string; the components may be zero and need no `<text>-` prefix.
`naruto-2x5` still yields `{2, 5}` and `naruto` yields `null`. -/
theorem claim_C5 :
    (∀ s : String, (parseEpisodeCode s).isSome = hasDigitXDigit s.toList)
    ∧ parseEpisodeCode "naruto-2x5" = some ⟨2, 5⟩
    ∧ parseEpisodeCode "naruto" = none := by
  refine ⟨?_, by decide, by decide⟩
  intro s
  rw [← findDxD_isSome s.toList]
  unfold parseEpisodeCode
  cases h : findDxD s.toList with
  | some p => cases p; simp [h]
  | none => simp [h]

/-- Counterexample to C8 as stated: the slug of
`https://toonstream.one/episode/naruto/` has no
`<slug>-<season>x<episode>` pattern and no caller hint is given, yet
building the episode code does not fail — it produces the fallback
`{season 1, episode floor(now / 1000)}`, so an episode record is still
produced from such a URL. -/
theorem claim_C8_counterexample :
    parseEpisodeCode "https://toonstream.one/episode/naruto/" = none
    ∧ buildEpisodeCode none "https://toonstream.one/episode/naruto/" 1760140800000
        = ⟨1, 1760140800⟩ := by
  exact ⟨by decide, by decide⟩

/-- C8 (amended): for every episode URL whose slug lacks the pattern and
with no caller-supplied code, `buildEpisodeRecord`'s code selection falls
back to season 1 with a timestamp-derived episode number instead of
failing; the episode record is still produced. -/
theorem claim_C8 (episodeUrl : String) (nowMs : Nat)
    (h : parseEpisodeCode episodeUrl = none) :
    buildEpisodeCode none episodeUrl nowMs = ⟨1, nowMs / 1000⟩ := by
  unfold buildEpisodeCode
  rw [h]

/-- Witness for C8 (amended) at a concrete unparsable URL and timestamp. -/
theorem claim_C8_witness :
    buildEpisodeCode none "https://toonstream.one/episode/bleach/" 1700000000000
      = ⟨1, 1700000000⟩ :=
  claim_C8 "https://toonstream.one/episode/bleach/" 1700000000000 (by decide)

/-- One step of the retry loop with attempts remaining. -/
theorem fetchHtmlGo_succ (env : Nat → AxiosOutcome) (url : String)
    (retries r : Nat) (lastErr : Option String) :
    fetchHtmlGo env url retries (r + 1) lastErr =
      match env (retries - r) with
      | .ok status body =>
        if validateStatus status then ⟨.ok body, 1, []⟩
        else
          ⟨(fetchHtmlGo env url retries r (some (axiosStatusErrMsg status))).result,
           (fetchHtmlGo env url retries r (some (axiosStatusErrMsg status))).attemptsMade + 1,
           500 * (retries - r) ::
             (fetchHtmlGo env url retries r (some (axiosStatusErrMsg status))).delays⟩
      | .netErr msg =>
        ⟨(fetchHtmlGo env url retries r (some msg)).result,
         (fetchHtmlGo env url retries r (some msg)).attemptsMade + 1,
         500 * (retries - r) :: (fetchHtmlGo env url retries r (some msg)).delays⟩ := rfl

/-- The retry loop executes at most `remaining` attempts. -/
theorem fetchHtmlGo_attempts_le (env : Nat → AxiosOutcome) (url : String)
    (retries : Nat) :
    ∀ remaining lastErr,
      (fetchHtmlGo env url retries remaining lastErr).attemptsMade ≤ remaining := by
  intro remaining
  induction remaining with
  | zero => intro lastErr; simp [fetchHtmlGo]
  | succ r ih =>
    intro lastErr
    rw [fetchHtmlGo_succ]
    cases env (retries - r) with
    | ok status body =>
      by_cases hv : validateStatus status
      · simp [hv]
      · simpa [hv] using Nat.succ_le_succ (ih _)
    | netErr msg =>
      simpa using Nat.succ_le_succ (ih _)

/-- When every remaining attempt fails, the loop runs them all, delays
`500 * attempt` after each, and throws with the last attempt's message. -/
theorem fetchHtmlGo_all_fail (env : Nat → AxiosOutcome) (url : String)
    (retries : Nat) :
    ∀ remaining lastErr, 1 ≤ remaining → remaining ≤ retries →
      (∀ a, retries - remaining < a → a ≤ retries → attemptFails env a = true) →
      fetchHtmlGo env url retries remaining lastErr =
        ⟨.error ("Failed to fetch " ++ url ++ ": " ++
            lastErrMsg (attemptErr (env retries))),
          remaining,
          (List.range' (retries - remaining + 1) remaining).map (fun a => 500 * a)⟩ := by
  intro remaining
  induction remaining with
  | zero => intro lastErr h1 _ _; omega
  | succ r ih =>
    intro lastErr _ hle hfail
    have hfails : attemptFails env (retries - r) = true :=
      hfail (retries - r) (by omega) (by omega)
    have hrange : List.range' (retries - (r + 1) + 1) (r + 1)
        = (retries - r) :: List.range' (retries - r + 1) r := by
      have h1 : retries - (r + 1) + 1 = retries - r := by omega
      rw [h1, List.range'_succ]
    rw [fetchHtmlGo_succ]
    rcases hr : r with _ | r'
    · -- last attempt: remaining = 1, attempt = retries
      subst hr
      have hrr : retries - 0 = retries := by omega
      rw [hrr] at hfails ⊢
      cases he : env retries with
      | ok status body =>
        rw [attemptFails, he] at hfails
        have hv : validateStatus status = false := by simpa using hfails
        simp [hv, fetchHtmlGo, lastErrMsg, attemptErr, he, hrange, hrr]
      | netErr msg =>
        simp [fetchHtmlGo, lastErrMsg, attemptErr, he, hrange, hrr]
    · -- more attempts follow
      subst hr
      cases he : env (retries - (r' + 1)) with
      | ok status body =>
        rw [attemptFails, he] at hfails
        have hv : validateStatus status = false := by simpa using hfails
        simp only []
        rw [ih _ (by omega) (by omega) (fun a ha1 ha2 => hfail a (by omega) ha2)]
        simp [hv, hrange]
      | netErr msg =>
        simp only []
        rw [ih _ (by omega) (by omega) (fun a ha1 ha2 => hfail a (by omega) ha2)]
        simp [hrange]

/-- When attempt `k` is the first success in the remaining window, the loop
returns its body after `k - (retries - remaining)` attempts, with delays
for the preceding failures only. -/
theorem fetchHtmlGo_success (env : Nat → AxiosOutcome) (url : String)
    (retries : Nat) :
    ∀ remaining lastErr k, remaining ≤ retries →
      retries - remaining < k → k ≤ retries →
      (∀ a, retries - remaining < a → a < k → attemptFails env a = true) →
      attemptFails env k = false →
      fetchHtmlGo env url retries remaining lastErr =
        ⟨.ok (attemptBody env k), k - (retries - remaining),
          (List.range' (retries - remaining + 1) (k - 1 - (retries - remaining))).map
            (fun a => 500 * a)⟩ := by
  intro remaining
  induction remaining with
  | zero => intro lastErr k _ h2 h3 _ _; omega
  | succ r ih =>
    intro lastErr k hle hk1 hk2 hfail hsucc
    rw [fetchHtmlGo_succ]
    by_cases hknow : k = retries - r
    · -- attempt k succeeds right now
      cases he : env (retries - r) with
      | ok status body =>
        rw [hknow, attemptFails, he] at hsucc
        have hv : validateStatus status = true := by simpa using hsucc
        simp [hv, attemptBody, he, hknow]
        omega
      | netErr msg =>
        rw [hknow, attemptFails, he] at hsucc
        simp at hsucc
    · -- attempt retries - r fails, continue
      have hkgt : retries - r < k := by omega
      have hf := hfail (retries - r) (by omega) hkgt
      have hrange : List.range' (retries - (r + 1) + 1) (k - 1 - (retries - (r + 1)))
          = (retries - r) :: List.range' (retries - r + 1) (k - 1 - (retries - r)) := by
        have h1 : retries - (r + 1) + 1 = retries - r := by omega
        have h2 : k - 1 - (retries - (r + 1)) = (k - 1 - (retries - r)) + 1 := by omega
        rw [h1, h2, List.range'_succ]
      have hcount : k - (retries - r) + 1 = k - (retries - (r + 1)) := by omega
      cases he : env (retries - r) with
      | ok status body =>
        rw [attemptFails, he] at hf
        have hv : validateStatus status = false := by simpa using hf
        simp only []
        rw [ih _ k (by omega) hkgt hk2 (fun a ha1 ha2 => hfail a (by omega) ha2) hsucc]
        simp [hv, hrange, hcount]
      | netErr msg =>
        simp only []
        rw [ih _ k (by omega) hkgt hk2 (fun a ha1 ha2 => hfail a (by omega) ha2) hsucc]
        simp [hrange, hcount]

/-- C6: `fetchHtmlWithRetry` makes at most `retries` attempts (the
configured maximum, default 3); when every attempt fails it awaits
`500 * attempt` after each attempt and throws an error carrying the last
underlying error's message; when attempt `k` is the first whose HTTP status
passes `validateStatus` (status in [200,400), redirects followed by the
transport up to the configured `maxRedirects` of 5), it returns that
response's body after delays `500 * 1, …, 500 * (k-1)`. -/
theorem claim_C6 (env : Nat → AxiosOutcome) (url : String) (retries : Nat) :
    CONFIG_maxRetries = 3
    ∧ buildAxiosConfig.maxRedirects = 5
    ∧ (fetchHtmlWithRetry env url retries).attemptsMade ≤ retries
    ∧ (1 ≤ retries → (∀ a, 1 ≤ a → a ≤ retries → attemptFails env a = true) →
        fetchHtmlWithRetry env url retries =
          ⟨.error ("Failed to fetch " ++ url ++ ": " ++
              lastErrMsg (attemptErr (env retries))),
            retries, (List.range' 1 retries).map (fun a => 500 * a)⟩)
    ∧ (∀ k, 1 ≤ k → k ≤ retries →
        (∀ a, 1 ≤ a → a < k → attemptFails env a = true) →
        attemptFails env k = false →
        fetchHtmlWithRetry env url retries =
          ⟨.ok (attemptBody env k), k,
            (List.range' 1 (k - 1)).map (fun a => 500 * a)⟩) := by
  have h0 : retries - retries = 0 := by omega
  refine ⟨rfl, rfl, fetchHtmlGo_attempts_le env url retries retries none, ?_, ?_⟩
  · intro hr hfail
    have h := fetchHtmlGo_all_fail env url retries retries none hr (le_refl _)
      (fun a ha1 ha2 => hfail a (by omega) ha2)
    simpa [fetchHtmlWithRetry, h0] using h
  · intro k hk1 hk2 hfail hsucc
    have h := fetchHtmlGo_success env url retries retries none k (le_refl _)
      (by omega) hk2 (fun a ha1 ha2 => hfail a (by omega) ha2) hsucc
    simpa [fetchHtmlWithRetry, h0] using h

/-- Witness for C6: with failure on attempt 1 and success on attempt 2 the
call returns the body after one 500 ms delay; with all three attempts
failing it throws with the last error's message after delays 500, 1000,
1500 ms. -/
theorem claim_C6_witness :
    fetchHtmlWithRetry retryEnvOk "https://toonstream.one/home/" 3
      = ⟨.ok "<html>ep</html>", 2, [500]⟩
    ∧ fetchHtmlWithRetry retryEnvFail "https://toonstream.one/home/" 3
      = ⟨.error
            "Failed to fetch https://toonstream.one/home/: Request failed with status code 503",
          3, [500, 1000, 1500]⟩ := by
  constructor
  · have h := (claim_C6 retryEnvOk "https://toonstream.one/home/" 3).2.2.2.2 2
      (by decide) (by decide)
      (fun a h1 h2 => by
        have ha : a = 1 := by omega
        subst ha; decide)
      (by decide)
    exact h.trans (by decide)
  · have h := (claim_C6 retryEnvFail "https://toonstream.one/home/" 3).2.2.2.1
      (by decide)
      (fun a h1 h2 => by
        have ha : a = 1 ∨ a = 2 ∨ a = 3 := by omega
        rcases ha with ha | ha | ha <;> subst ha <;> decide)
    exact h.trans (by decide)

/-- C7: every entry of the embeds list built from a trembed candidate is
resolved: its `real_video` is exactly what resolution returned for its
intermediate URL — non-null, different from that URL, and outside the
source site (containing neither `toonstream.one` nor `trembed`) — and the
entry's `url` equals `real_video`.  The loop is total: candidates that fail
to resolve are dropped from the list rather than failing the episode
sync. -/
theorem claim_C7 (resolveFn : String → Option String)
    (opts : List ServerOption) (e : ResolvedEmbed)
    (he : e ∈ extractEmbedsLoop resolveFn opts) :
    (∀ t, e.intermediate_url = some t →
      resolveFn t = some e.real_video ∧ e.real_video ≠ t
      ∧ strContains e.real_video "toonstream.one" = false
      ∧ strContains e.real_video "trembed" = false)
    ∧ e.url = e.real_video := by
  induction opts with
  | nil => simp [extractEmbedsLoop] at he
  | cons server rest ih =>
    rw [extractEmbedsLoop] at he
    by_cases hd : jsTruthy server.directUrl
    · rw [if_pos hd] at he
      rcases List.mem_cons.mp he with h | h
      · subst h
        exact ⟨fun t ht => by simp at ht, rfl⟩
      · exact ih h
    · rw [if_neg hd] at he
      by_cases ht : jsTruthy server.trembedUrl
      · rw [if_pos ht] at he
        simp only [] at he
        cases hr : resolveFn (server.trembedUrl.getD "") with
        | some realVideoUrl =>
          rw [hr] at he
          simp only [] at he
          by_cases hc : realVideoUrl ≠ "" ∧ realVideoUrl ≠ server.trembedUrl.getD ""
              ∧ strContains realVideoUrl "toonstream.one" = false
              ∧ strContains realVideoUrl "trembed" = false
          · rw [if_pos hc] at he
            rcases List.mem_cons.mp he with h | h
            · subst h
              refine ⟨fun t hteq => ?_, rfl⟩
              simp only [Option.some.injEq] at hteq
              subst hteq
              exact ⟨hr, hc.2.1, hc.2.2.1, hc.2.2.2⟩
            · exact ih h
          · rw [if_neg hc] at he
            exact ih he
        | none =>
          rw [hr] at he
          simp only [] at he
          exact ih he
      · rw [if_neg ht] at he
        exact ih he

/-- Witness for C7: of two trembed candidates, the resolvable one yields an
embeds entry whose `real_video` is the resolver's external answer, and the
unresolvable one is dropped, leaving a single entry. -/
theorem claim_C7_witness :
    ((∀ t, demoEmbed.intermediate_url = some t →
        demoResolve t = some demoEmbed.real_video ∧ demoEmbed.real_video ≠ t
        ∧ strContains demoEmbed.real_video "toonstream.one" = false
        ∧ strContains demoEmbed.real_video "trembed" = false)
      ∧ demoEmbed.url = demoEmbed.real_video)
    ∧ extractEmbedsLoop demoResolve demoOptions = [demoEmbed] :=
  ⟨claim_C7 demoResolve demoOptions demoEmbed (by decide), by decide⟩

/-- Every collected link's key is new relative to `seen`, and the link is
the first entry with its key among the processed anchors in document
order. -/
theorem collectLinks_mem (env : ResolveEnv) (seriesUrl : String) :
    ∀ (anchors : List AnchorEl) (seen : List String) (e : EpisodeLink),
      e ∈ collectLinks env seriesUrl anchors seen →
      seKey e.season e.episode ∉ seen
      ∧ (anchors.filterMap (addLink env seriesUrl)).find?
          (fun l => seKey l.season l.episode == seKey e.season e.episode) = some e := by
  intro anchors
  induction anchors with
  | nil => intro seen e he; simp [collectLinks] at he
  | cons a rest ih =>
    intro seen e he
    rw [collectLinks] at he
    cases ha : addLink env seriesUrl a with
    | none =>
      rw [ha] at he
      simp only [] at he
      obtain ⟨h1, h2⟩ := ih seen e he
      exact ⟨h1, by simpa [List.filterMap_cons, ha] using h2⟩
    | some link =>
      rw [ha] at he
      simp only [] at he
      by_cases hk : seKey link.season link.episode ∈ seen
      · rw [if_pos hk] at he
        obtain ⟨h1, h2⟩ := ih seen e he
        have hne : (seKey link.season link.episode == seKey e.season e.episode) = false := by
          simp only [beq_eq_false_iff_ne, ne_eq]
          intro hcon
          exact h1 (hcon ▸ hk)
        refine ⟨h1, ?_⟩
        simp [List.filterMap_cons, ha, List.find?_cons, hne, h2]
      · rw [if_neg hk] at he
        rcases List.mem_cons.mp he with h | h
        · subst h
          refine ⟨hk, ?_⟩
          simp [List.filterMap_cons, ha, List.find?_cons]
        · obtain ⟨h1, h2⟩ := ih (seKey link.season link.episode :: seen) e h
          have hne : (seKey link.season link.episode == seKey e.season e.episode) = false := by
            simp only [beq_eq_false_iff_ne, ne_eq]
            intro hcon
            exact h1 (by simp [hcon])
          refine ⟨fun hcon => h1 (by simp [hcon]), ?_⟩
          simp [List.filterMap_cons, ha, List.find?_cons, hne, h2]

/-- Collected links have pairwise distinct season-episode keys. -/
theorem collectLinks_pairwise (env : ResolveEnv) (seriesUrl : String) :
    ∀ (anchors : List AnchorEl) (seen : List String),
      (collectLinks env seriesUrl anchors seen).Pairwise
        (fun a b => seKey a.season a.episode ≠ seKey b.season b.episode) := by
  intro anchors
  induction anchors with
  | nil => intro seen; simp [collectLinks]
  | cons a rest ih =>
    intro seen
    rw [collectLinks]
    cases ha : addLink env seriesUrl a with
    | none => exact ih seen
    | some link =>
      simp only []
      by_cases hk : seKey link.season link.episode ∈ seen
      · rw [if_pos hk]
        exact ih seen
      · rw [if_neg hk]
        refine List.pairwise_cons.mpr ⟨?_, ih _⟩
        intro b hb
        have h1 := (collectLinks_mem env seriesUrl rest
          (seKey link.season link.episode :: seen) b hb).1
        intro hcon
        exact h1 (by simp [hcon])

/-- The claim C9 statement's sorted part follows from insertion sort. -/
theorem extractSeriesEpisodeLinks_perm (env : ResolveEnv)
    (anchors : List AnchorEl) (seriesUrl : String) :
    (extractSeriesEpisodeLinks env anchors seriesUrl).Perm
      (collectLinks env seriesUrl anchors []) :=
  List.perm_insertionSort episodeLeR (collectLinks env seriesUrl anchors [])

/-- C9: the returned list is sorted strictly ascending by (season,
episode) - season first, episode breaking ties - hence contains at most
one entry per pair, and each entry is the first link with its
season-episode key among the processed anchors in document order. -/
theorem claim_C9 (env : ResolveEnv) (anchors : List AnchorEl) (seriesUrl : String) :
    (extractSeriesEpisodeLinks env anchors seriesUrl).Pairwise
      (fun a b => a.season < b.season ∨ (a.season = b.season ∧ a.episode < b.episode))
    ∧ ∀ e ∈ extractSeriesEpisodeLinks env anchors seriesUrl,
        (anchors.filterMap (addLink env seriesUrl)).find?
          (fun l => seKey l.season l.episode == seKey e.season e.episode) = some e := by
  constructor
  · have hsorted : (extractSeriesEpisodeLinks env anchors seriesUrl).Pairwise episodeLeR :=
      List.sorted_insertionSort episodeLeR (collectLinks env seriesUrl anchors [])
    have hne : (extractSeriesEpisodeLinks env anchors seriesUrl).Pairwise
        (fun a b => seKey a.season a.episode ≠ seKey b.season b.episode) :=
      (List.Perm.pairwise_iff (fun h hcon => h hcon.symm)
        (extractSeriesEpisodeLinks_perm env anchors seriesUrl)).mpr
        (collectLinks_pairwise env seriesUrl anchors [])
    refine (hsorted.and hne).imp ?_
    intro a b hab
    obtain ⟨hle, hkey⟩ := hab
    simp only [episodeLeR, episodeLe] at hle
    by_cases hs : a.season = b.season
    · rw [if_pos hs] at hle
      right
      refine ⟨hs, ?_⟩
      have hne' : a.episode ≠ b.episode := fun he => hkey (by rw [seKey, seKey, hs, he])
      have hle' : a.episode ≤ b.episode := by simpa using hle
      omega
    · rw [if_neg hs] at hle
      left
      have hle' : a.season ≤ b.season := by simpa using hle
      omega
  · intro e he
    exact (collectLinks_mem env seriesUrl anchors [] e
      ((extractSeriesEpisodeLinks_perm env anchors seriesUrl).mem_iff.mp he)).2

/-- Witness for C9: four anchors out of order with a duplicate 1x2 key
yield a sorted deduplicated list, and the kept 1x2 entry is the first one
in document order. -/
theorem claim_C9_witness :
    (extractSeriesEpisodeLinks demoLinkEnv demoAnchors
        "https://toonstream.one/series/naruto/").Pairwise
      (fun a b => a.season < b.season ∨ (a.season = b.season ∧ a.episode < b.episode))
    ∧ (demoAnchors.filterMap (addLink demoLinkEnv
          "https://toonstream.one/series/naruto/")).find?
        (fun l => seKey l.season l.episode
          == seKey demoLink12.season demoLink12.episode) = some demoLink12 :=
  ⟨(claim_C9 demoLinkEnv demoAnchors "https://toonstream.one/series/naruto/").1,
   (claim_C9 demoLinkEnv demoAnchors "https://toonstream.one/series/naruto/").2
     demoLink12
     ((extractSeriesEpisodeLinks_perm demoLinkEnv demoAnchors
         "https://toonstream.one/series/naruto/").mem_iff.mpr (by decide))⟩

/-- `fetchHtml` preserves the fetch-accounting invariant: at the cap it
throws leaving the state untouched; below it, counter and log advance
together. -/
theorem fetchHtml_winv (env : WorkerEnv) (url : String) (st : WState)
    (h : WInv st) : WInv (fetchHtml env url st).2 := by
  unfold fetchHtml
  by_cases hc : canFetch st = false
  · simp [hc, h]
  · have hlt : st.subrequestCount < MAX_SUBREQUESTS := by
      simpa [canFetch] using hc
    obtain ⟨h1, _⟩ := h
    simp only [hc, Bool.false_eq_true, if_false, ite_false]
    cases env.page url <;> simp [WInv, h1] <;> omega

/-- `wIframeScan` preserves the invariant when its recursion does. -/
theorem wIframeScan_winv (recurse : String → WState → Option String × WState)
    (hrec : ∀ u s, WInv s → WInv (recurse u s).2) :
    ∀ (l : List String) (st : WState), WInv st → WInv (wIframeScan recurse l st).2 := by
  intro l
  induction l with
  | nil => intro st h; simpa [wIframeScan] using h
  | cons raw rest ih =>
    intro st h
    rw [wIframeScan]
    by_cases hx : wExternal (fixProtocol raw)
    · simpa [hx] using h
    · rw [if_neg hx]
      by_cases hm : (strContains (fixProtocol raw) "trembed"
          || strContains (fixProtocol raw) "trid=") = true
      · rw [if_pos hm]
        have h' := hrec (fixProtocol raw) st h
        cases hr : recurse (fixProtocol raw) st with
        | mk r st' =>
          rw [hr] at h'
          cases r with
          | some u => simpa using h'
          | none => simpa using ih st' h'
      · rw [if_neg hm]
        exact ih st h

/-- `resolveVideoUrl` preserves the invariant at any fuel and depth. -/
theorem resolveVideoUrlGo_winv (env : WorkerEnv) :
    ∀ (fuel : Nat) (url : String) (depth : Nat) (st : WState),
      WInv st → WInv (resolveVideoUrlGo env fuel url depth st).2 := by
  intro fuel
  induction fuel with
  | zero => intro url depth st h; simpa [resolveVideoUrlGo] using h
  | succ fuel ih =>
    intro url depth st h
    rw [resolveVideoUrlGo]
    by_cases hg : 3 < depth ∨ canFetch st = false
    · simpa [hg] using h
    · rw [if_neg hg]
      have hfetch := fetchHtml_winv env url st h
      cases hf : fetchHtml env url st with
      | mk r st' =>
        rw [hf] at hfetch
        cases r with
        | error e => simpa using hfetch
        | ok page =>
          simp only []
          have hscan := wIframeScan_winv
            (fun u s => resolveVideoUrlGo env fuel u (depth + 1) s)
            (fun u s hs => ih u (depth + 1) s hs) page.iframes st' hfetch
          cases hs : wIframeScan (fun u s => resolveVideoUrlGo env fuel u (depth + 1) s)
              page.iframes st' with
          | mk r2 st'' =>
            rw [hs] at hscan
            cases r2 with
            | some u => simpa using hscan
            | none =>
              cases page.locationRedirect with
              | some raw =>
                simp only []
                by_cases hloc : (!strContains (fixProtocol raw) "toonstream.one"
                    && !strContains (fixProtocol raw) "trembed") = true
                · simpa [hloc] using hscan
                · simpa [hloc] using hscan
              | none => simpa using hscan

/-- `serverLoop` preserves the invariant. -/
theorem serverLoop_winv (env : WorkerEnv) :
    ∀ (l : List String) (st : WState), WInv st → WInv (serverLoop env l st).2 := by
  intro l
  induction l with
  | nil => intro st h; simpa [serverLoop] using h
  | cons t rest ih =>
    intro st h
    rw [serverLoop]
    by_cases hc : canFetch st = false
    · simpa [hc] using h
    · rw [if_neg hc]
      have hres := resolveVideoUrlGo_winv env 5 t 0 st h
      cases hr : resolveVideoUrl env t st with
      | mk r st' =>
        rw [resolveVideoUrl] at hr
        rw [hr] at hres
        cases r with
        | some v => simpa using hres
        | none => simpa using ih st' hres

/-- `episodeLoop` preserves the invariant. -/
theorem episodeLoop_winv (env : WorkerEnv) :
    ∀ (eps : List WEpisode) (i synced skipped pidx : Nat) (st : WState),
      WInv st → WInv (episodeLoop env eps i synced skipped pidx st).2 := by
  intro eps
  induction eps with
  | nil => intro i synced skipped pidx st h; simpa [episodeLoop] using h
  | cons ep rest ih =>
    intro i synced skipped pidx st h
    rw [episodeLoop]
    by_cases hc : canFetch st = false
    · simpa [hc, saveProgress, WInv] using h
    · rw [if_neg hc]
      by_cases hex : env.episodeExists ep.animeSlug ep.season ep.episode
      · rw [if_pos hex]
        exact ih _ _ _ _ st h
      · rw [if_neg hex]
        rw [if_neg hc]
        have hfetch := fetchHtml_winv env ep.url st h
        cases hf : fetchHtml env ep.url st with
        | mk r st' =>
          rw [hf] at hfetch
          cases r with
          | error e => simpa using ih _ _ _ _ st' hfetch
          | ok page =>
            simp only []
            by_cases hemp : page.trembedUrls.isEmpty
            · simpa [hemp] using ih _ _ _ _ st' hfetch
            · rw [if_neg hemp]
              have hsrv := serverLoop_winv env page.trembedUrls st' hfetch
              cases hs : serverLoop env page.trembedUrls st' with
              | mk r2 st'' =>
                rw [hs] at hsrv
                cases r2 with
                | none => simpa using ih _ _ _ _ st'' hsrv
                | some v =>
                  simp only []
                  by_cases hup : env.upsertFails ep.id
                  · simpa [hup] using ih _ _ _ _ st'' hsrv
                  · simpa [hup] using ih _ _ _ _ st'' hsrv

/-- `runSync` leaves a state satisfying the fetch-accounting invariant. -/
theorem runSync_winv (env : WorkerEnv) (st0 : WState) : WInv (runSync env st0) := by
  rw [runSync]
  have h0 : WInv { st0 with subrequestCount := 0, fetchLog := [] } := by
    simp [WInv, MAX_SUBREQUESTS]
  have hfetch := fetchHtml_winv env "https://toonstream.one/"
    { st0 with subrequestCount := 0, fetchLog := [] } h0
  cases hf : fetchHtml env "https://toonstream.one/"
      { st0 with subrequestCount := 0, fetchLog := [] } with
  | mk r st' =>
    rw [hf] at hfetch
    cases r with
    | error e => simpa using hfetch
    | ok page =>
      simp only []
      by_cases hemp : page.episodes.isEmpty
      · simpa [hemp] using hfetch
      · rw [if_neg hemp]
        have hloop := episodeLoop_winv env
          (page.episodes.drop (if page.episodes.length ≤ getProgress st' then 0
            else getProgress st'))
          (if page.episodes.length ≤ getProgress st' then 0 else getProgress st')
          0 0
          (if page.episodes.length ≤ getProgress st' then 0 else getProgress st')
          st' hfetch
        by_cases hend : page.episodes.length - 1
            ≤ (episodeLoop env
                (page.episodes.drop (if page.episodes.length ≤ getProgress st' then 0
                  else getProgress st'))
                (if page.episodes.length ≤ getProgress st' then 0 else getProgress st')
                0 0
                (if page.episodes.length ≤ getProgress st' then 0 else getProgress st')
                st').1.2.2
        · simpa [hend, saveProgress, WInv] using hloop
        · simpa [hend] using hloop

/-- C10: one `runSync` run issues at most `MAX_SUBREQUESTS = 45` outbound
page fetches — the counter is reset at the start of the run (the run's
result does not depend on the inherited counter or log), it always equals
the number of fetches issued since the reset, and stays within the cap;
`fetchHtml` at the cap throws `Subrequest limit reached` without touching
the state, below the cap it increments the counter and logs exactly one
fetch; and the episode loop, at the cap, saves the resume index and stops
instead of fetching. -/
theorem claim_C10 (env : WorkerEnv) (st : WState) (url : String)
    (eps : List WEpisode) (ep : WEpisode) (i synced skipped pidx : Nat) :
    ((runSync env st).fetchLog.length ≤ 45
      ∧ (runSync env st).subrequestCount = (runSync env st).fetchLog.length
      ∧ MAX_SUBREQUESTS = 45
      ∧ runSync env st
          = runSync env { st with subrequestCount := 0, fetchLog := [] })
    ∧ (canFetch st = false →
        fetchHtml env url st = (.error "Subrequest limit reached", st)
        ∧ episodeLoop env (ep :: eps) i synced skipped pidx st
            = ((synced, skipped, pidx), saveProgress i st))
    ∧ (canFetch st = true →
        (fetchHtml env url st).2.subrequestCount = st.subrequestCount + 1
        ∧ (fetchHtml env url st).2.fetchLog = st.fetchLog ++ [url]) := by
  obtain ⟨hlen, hcap⟩ := runSync_winv env st
  rw [MAX_SUBREQUESTS] at hcap
  refine ⟨⟨by omega, hlen, rfl, rfl⟩, ?_, ?_⟩
  · intro h
    constructor
    · simp [fetchHtml, h]
    · rw [episodeLoop]
      simp [h]
  · intro h
    have h' : ¬ canFetch st = false := by simp [h]
    unfold fetchHtml
    rw [if_neg h']
    cases env.page url <;> simp

/-- Witness for C10: a three-page run stays far under the cap; at the cap
`fetchHtml` throws without issuing and the episode loop saves the resume
index; below the cap `fetchHtml` counts and logs one fetch. -/
theorem claim_C10_witness :
    ((runSync wDemoEnv wStateFresh).fetchLog.length ≤ 45
      ∧ (runSync wDemoEnv wStateFresh).subrequestCount
          = (runSync wDemoEnv wStateFresh).fetchLog.length
      ∧ MAX_SUBREQUESTS = 45
      ∧ runSync wDemoEnv wStateFresh
          = runSync wDemoEnv { wStateFresh with subrequestCount := 0, fetchLog := [] })
    ∧ (fetchHtml wDemoEnv "https://toonstream.one/" wStateAtCap
          = (.error "Subrequest limit reached", wStateAtCap)
        ∧ episodeLoop wDemoEnv [demoWEpisode] 0 0 0 0 wStateAtCap
            = ((0, 0, 0), saveProgress 0 wStateAtCap))
    ∧ ((fetchHtml wDemoEnv "https://toonstream.one/" wStateFresh).2.subrequestCount
          = wStateFresh.subrequestCount + 1
        ∧ (fetchHtml wDemoEnv "https://toonstream.one/" wStateFresh).2.fetchLog
          = wStateFresh.fetchLog ++ ["https://toonstream.one/"]) :=
  ⟨(claim_C10 wDemoEnv wStateFresh "https://toonstream.one/" [] demoWEpisode 0 0 0 0).1,
   (claim_C10 wDemoEnv wStateAtCap "https://toonstream.one/" [] demoWEpisode 0 0 0 0).2.1
     (by decide),
   (claim_C10 wDemoEnv wStateFresh "https://toonstream.one/" [] demoWEpisode 0 0 0 0).2.2
     (by decide)⟩

end Toonstream
